import Mathlib

/-!
# Verification of the HAProxy trace filter (`src/flt_trace.c`)

A shallow embedding of the message traversal, randomized partial-I/O
simulation and hex-dump rendering of the trace stream filter, together
with theorems settling the specification claims.

Modelling conventions:
* bytes and diagnostic output are `List Nat` (byte streams written to the
  error sink); C `unsigned char` casts appear as `% 256`;
* the process-wide `random()` draw is passed in explicitly as `rng : Nat`
  (the C code computes `random() % (n+1)` on a nonnegative `long`);
* counts (`avail`, `len`, offsets) are `Nat`: the channel invariant
  `0 <= forwarded <= next <= total` of the host pipeline makes every count
  the code computes nonnegative, so `int` overflow/sign cases are outside
  the modelled state space;
* `size_t` subtraction that can wrap (`v.len -= offset` on a header block
  sliced past its value) is modelled exactly, modulo `2^64`.
-/

/-- The filter configuration built by `parse_trace_flt` (struct trace_config). -/
structure TraceConfig where
  name : Option String
  rand_parsing : Bool
  rand_forwarding : Bool
  hexdump : Bool
deriving Repr, DecidableEq

/-! ## HTX message blocks

`struct htx_blk`: a typed block of a structured message.  `sz` is
`htx_get_blksz` (for a header block: name length + value length); `val` is
the byte run returned by `htx_get_blk_value` (for DATA blocks `val.length
= sz`, for header blocks only the value part). -/

/-- HTX block types relevant to the trace filter. -/
inductive BlkType where
  | hdr
  | eoh
  | data
  | tlr
  | eom
deriving Repr, DecidableEq

/-- One HTX block: type, block size (`htx_get_blksz`) and the value bytes
(`htx_get_blk_value`). -/
structure Blk where
  ty : BlkType
  sz : Nat
  val : List Nat
deriving Repr, DecidableEq

/-- `2^64`, the modulus of C `size_t` arithmetic. -/
def SZWRAP : Nat := 2 ^ 64

/-! ## Partial-I/O decisions of the data-path hooks

Each hook is translated to a pure function from the channel/message counts
it reads (plus the random draw) to the values it produces: the returned
count, the number of `task_wakeup` calls, and the dumped byte stream. -/

/-- `avail` as computed by `trace_http_data`:
`MIN(msg->chunk_len + msg->next, ci_data(msg->chn)) - FLT_NXT(filter, msg->chn)`. -/
def httpAvail (chunk_len msg_next ci_data flt_nxt : Nat) : Nat :=
  min (chunk_len + msg_next) ci_data - flt_nxt

/-- `avail` as computed by `trace_tcp_data`: `ci_data(chn) - FLT_NXT(filter, chn)`. -/
def tcpAvail (ci_data flt_nxt : Nat) : Nat :=
  ci_data - flt_nxt

/-- Result of a parsing-side data hook: returned count and `task_wakeup` count. -/
structure DataResult where
  ret : Nat
  wake : Nat
deriving Repr, DecidableEq

/-- `trace_http_data`: consume `avail` bytes, or a uniform draw from
`[0, avail]` when `rand_parsing` is set; wake the task iff the returned
count differs from `avail`. -/
def trace_http_data (conf : TraceConfig) (chunk_len msg_next ci_data flt_nxt rng : Nat) :
    DataResult :=
  let avail := httpAvail chunk_len msg_next ci_data flt_nxt
  let ret := if avail ≠ 0 ∧ conf.rand_parsing then rng % (avail + 1) else avail
  { ret := ret, wake := if ret ≠ avail then 1 else 0 }

/-- `trace_tcp_data`: same decision on `ci_data - FLT_NXT`. -/
def trace_tcp_data (conf : TraceConfig) (ci_data flt_nxt rng : Nat) : DataResult :=
  let avail := tcpAvail ci_data flt_nxt
  let ret := if avail ≠ 0 ∧ conf.rand_parsing then rng % (avail + 1) else avail
  { ret := ret, wake := if ret ≠ avail then 1 else 0 }

/-- The forward-cap loop of `trace_http_payload`: walk the blocks, stop at
the first non-DATA block, count the DATA bytes reachable from `off`,
clamping at `len` (`data` is the C accumulator variable). -/
def payloadData (blocks : List Blk) (off len data : Nat) : Nat :=
  match blocks with
  | [] => data
  | b :: rest =>
    if b.ty ≠ BlkType.data then data
    else if off ≥ b.sz then payloadData rest (off - b.sz) len data
    else
      let d := data + (b.sz - off)
      if d > len then len else payloadData rest 0 len d

/-- Total size of the leading run of DATA blocks (the bytes the cap loop
of `trace_http_payload` can see before its `break`). -/
def leadingData (blocks : List Blk) : Nat :=
  match blocks with
  | [] => 0
  | b :: rest => if b.ty = BlkType.data then b.sz + leadingData rest else 0

/-! ## Hex dump rendering (`trace_hexdump`)

The output byte stream of the `fprintf` loop: tab = 9, space = 32,
colon = 58, pipe = 124, newline = 10, dot = 46. -/

/-- Lower-case hex digit character code for a nibble. -/
def hexDigitCode (n : Nat) : Nat :=
  if n < 10 then 48 + n else 97 + (n - 10)

/-- Division-loop of the hex representation; the fuel (`n` itself at the
top call) always dominates the digit count, since `n / 16 < n`. -/
def hexRepGo (fuel n : Nat) : List Nat :=
  match fuel with
  | 0 => []
  | f + 1 => if n = 0 then [] else hexRepGo f (n / 16) ++ [hexDigitCode (n % 16)]

/-- Minimal lower-case hex representation (most significant digit first,
empty for 0), as `%x` prints it. -/
def hexRep (n : Nat) : List Nat :=
  hexRepGo n n

/-- `%06x`: hex digits zero-padded on the left to width 6. -/
def hexPad6 (n : Nat) : List Nat :=
  List.replicate (6 - (hexRep n).length) 48 ++ hexRep n

/-- `"\t0x%06x: "` printed at the start of each dump row. -/
def rowHdr (i : Nat) : List Nat :=
  9 :: 48 :: 120 :: (hexPad6 i ++ [58, 32])

/-- `%02x` of a byte already reduced mod 256, followed by a space. -/
def hex2sp (b : Nat) : List Nat :=
  [hexDigitCode (b / 16 % 16), hexDigitCode (b % 16), 32]

/-- `isprint` on a C `char` holding this byte: bytes `0x80..0xff` are
negative as `char` and never printable, so exactly `0x20..0x7e` print. -/
def printable (b : Nat) : Bool :=
  32 ≤ b % 256 && b % 256 ≤ 126

/-- The character emitted in the ASCII column for a byte. -/
def printCh (b : Nat) : Nat :=
  if printable b then b % 256 else 46

/-- The ASCII-column loop `for (j = i-15; j <= i && j < ist.len; j++)`:
starting at `j`, at most `fuel` (16) characters, stopping at the end of
the bytes. -/
def asciiLoop (bs : List Nat) (j fuel : Nat) : List Nat :=
  match fuel with
  | 0 => []
  | f + 1 => if j < bs.length then printCh (bs.getD j 0) :: asciiLoop bs (j + 1) f else []

/-- The hex cell printed for index `i`: `%02x ` of the byte when present,
three blank spaces in the padded tail of the final row. -/
def cellPiece (bs : List Nat) (i : Nat) : List Nat :=
  if i < bs.length then hex2sp (bs.getD i 0 % 256) else [32, 32, 32]

/-- Everything iteration `i` of the `trace_hexdump` loop prints: the row
header at a row start, the extra two spaces before the 9th cell, the hex
cell, and at index 15 of a row the closing ASCII column. -/
def dumpPiece (bs : List Nat) (i : Nat) : List Nat :=
  (if i % 16 = 0 then rowHdr i else if i % 8 = 0 then [32, 32] else [])
    ++ cellPiece bs i
    ++ (if i % 16 = 15 then
          [32, 32, 124] ++ asciiLoop bs (i - 15) 16 ++ [124, 10]
        else [])

/-- The `for (i = 0; i < ist.len + padding; i++)` loop, `fuel` iterations
remaining, current index `i`. -/
def dumpLoop (bs : List Nat) (i fuel : Nat) : List Nat :=
  match fuel with
  | 0 => []
  | f + 1 => dumpPiece bs i ++ dumpLoop bs (i + 1) f

/-- `padding = ((ist.len % 16) ? (16 - ist.len % 16) : 0)`. -/
def hexPadding (n : Nat) : Nat :=
  if n % 16 = 0 then 0 else 16 - n % 16

/-- `trace_hexdump`: the byte stream written to stderr for a byte window. -/
def trace_hexdump (bs : List Nat) : List Nat :=
  dumpLoop bs 0 (bs.length + hexPadding bs.length)

/-! ## Ring buffers and `trace_raw_hexdump` -/

/-- `struct buffer`: physical storage `orig` (its length is `b_size`),
`head` index of the first byte, `data` bytes present. -/
structure Buffer where
  orig : List Nat
  head : Nat
  data : Nat
deriving Repr, DecidableEq

/-- `b_peek_ofs(b, ofs)`: `head + ofs`, wrapped once past the physical end. -/
def b_peek_ofs (b : Buffer) (ofs : Nat) : Nat :=
  if b.head + ofs ≥ b.orig.length then b.head + ofs - b.orig.length else b.head + ofs

/-- `b_contig_data(b, start)`: bytes readable contiguously at logical
offset `start`, limited by the physical end and by the data present. -/
def b_contig_data (b : Buffer) (start : Nat) : Nat :=
  min (b.orig.length - b_peek_ofs b start) (b.data - start)

/-- First memcpy source of `trace_raw_hexdump`: `block1` bytes from `b_head`. -/
def rawSpan1 (buf : Buffer) (len out : Nat) : List Nat :=
  (buf.orig.drop (b_peek_ofs buf 0)).take (min len (b_contig_data buf out))

/-- Second memcpy source of `trace_raw_hexdump`: the remaining
`block2 = len - block1` bytes wrapped to `b_orig`. -/
def rawSpan2 (buf : Buffer) (len out : Nat) : List Nat :=
  buf.orig.take (len - min len (b_contig_data buf out))

/-- `trace_raw_hexdump`: copy the two physical spans of the window into a
contiguous scratch array and hex-dump it. -/
def trace_raw_hexdump (buf : Buffer) (len out : Nat) : List Nat :=
  trace_hexdump (rawSpan1 buf len out ++ rawSpan2 buf len out)

/-! ## Structured dump (`trace_htx_hexdump`) -/

/-- The block walk of `trace_htx_hexdump`, returning the list of DATA byte
runs passed to `trace_hexdump` (in order).  Every block's size is charged
against `offset`; the sliced value length (`v.len -= offset`, a `size_t`)
is charged against `len`; only DATA runs are dumped. -/
def htxRuns (blocks : List Blk) (offset len : Nat) : List (List Nat) :=
  match blocks with
  | [] => []
  | b :: rest =>
    if len = 0 then []
    else if offset ≥ b.sz then htxRuns rest (offset - b.sz) len
    else
      let vlen0 := (b.val.length + SZWRAP - offset) % SZWRAP
      let vlen := if vlen0 > len then len else vlen0
      if b.ty = BlkType.data then
        ((b.val.drop offset).take vlen) :: htxRuns rest 0 (len - vlen)
      else htxRuns rest 0 (len - vlen)

/-- `trace_htx_hexdump`: the dumped byte stream, one `trace_hexdump` call
per DATA run inside the addressed window. -/
def trace_htx_hexdump (blocks : List Blk) (offset len : Nat) : List Nat :=
  ((htxRuns blocks offset len).map trace_hexdump).flatten

/-! ## The structured payload hook (`trace_http_payload`) -/

/-- Result of `trace_http_payload`: returned forward count, `task_wakeup`
count, and the dumped byte stream. -/
structure PayloadResult where
  ret : Nat
  wake : Nat
  dump : List Nat
deriving Repr, DecidableEq

/-- `trace_http_payload`: start from `ret = len`; with `rand_forwarding`
set and `len` nonzero, compute the DATA-byte cap, draw `random() % (len+1)`
and fall back to `len` when the draw exceeds the cap; dump the window
`[offset, offset+len)` when `hexdump` is set; wake the task iff the
returned count differs from `len`. -/
def trace_http_payload (conf : TraceConfig) (blocks : List Blk) (offset len rng : Nat) :
    PayloadResult :=
  let ret :=
    if len ≠ 0 ∧ conf.rand_forwarding then
      let data := payloadData blocks offset len 0
      let r := rng % (len + 1)
      if r > data then len else r
    else len
  { ret := ret
    wake := if ret ≠ len then 1 else 0
    dump := if conf.hexdump then trace_htx_hexdump blocks offset len else [] }

/-! ## Channels and the forward hooks -/

/-- `struct channel`: its buffer and the `output` count (`co_data`). -/
structure Channel where
  buf : Buffer
  output : Nat
deriving Repr, DecidableEq

/-- `c_adv(chn, adv)`: schedule `adv` more input bytes as output. -/
def c_adv (c : Channel) (adv : Nat) : Channel :=
  { c with output := c.output + adv }

/-- `c_rew(chn, adv)`: put `adv` output bytes back into the input. -/
def c_rew (c : Channel) (adv : Nat) : Channel :=
  { c with output := c.output - adv }

/-- `co_data(chn)`: the channel's output byte count. -/
def co_data (c : Channel) : Nat :=
  c.output

/-- Result of a forward hook: channel state on return, returned forward
count, `task_wakeup` count, and the dumped byte stream. -/
structure FwdResult where
  chn : Channel
  ret : Nat
  wake : Nat
  dump : List Nat
deriving Repr, DecidableEq

/-- `trace_http_forward_data`: decide the forwarded count (random draw in
`[0, len]` under `rand_forwarding`); for the dump, temporarily advance the
channel by `FLT_FWD`, dump `ret` bytes, and rewind; wake the task iff the
count differs from `len` or the filter offsets disagree. -/
def trace_http_forward_data (conf : TraceConfig) (chn : Channel)
    (flt_nxt flt_fwd len rng : Nat) : FwdResult :=
  let ret := if len ≠ 0 ∧ conf.rand_forwarding then rng % (len + 1) else len
  let st :=
    if conf.hexdump then
      let c1 := c_adv chn flt_fwd
      let d := trace_raw_hexdump c1.buf ret (co_data c1)
      (c_rew c1 flt_fwd, d)
    else (chn, [])
  { chn := st.1
    ret := ret
    wake := if ret ≠ len ∨ flt_nxt ≠ flt_fwd + ret then 1 else 0
    dump := st.2 }

/-- `trace_tcp_forward_data`: as the HTTP variant, but the wake-up
condition only compares the returned count with `len`. -/
def trace_tcp_forward_data (conf : TraceConfig) (chn : Channel)
    (flt_fwd len rng : Nat) : FwdResult :=
  let ret := if len ≠ 0 ∧ conf.rand_forwarding then rng % (len + 1) else len
  let st :=
    if conf.hexdump then
      let c1 := c_adv chn flt_fwd
      let d := trace_raw_hexdump c1.buf ret (co_data c1)
      (c_rew c1 flt_fwd, d)
    else (chn, [])
  { chn := st.1
    ret := ret
    wake := if ret ≠ len then 1 else 0
    dump := st.2 }

/-! ## Configuration parsing (`parse_trace_flt`) -/

/-- `args[i]` with the host guarantee that the argument array is padded
with empty strings past its end. -/
def argAt (args : List String) (i : Nat) : String :=
  args.getD i ""

/-- The `memprintf(err, "'%s' : '%s' option without value", ...)` message. -/
def msgNoValue (kw opt : String) : String :=
  "'" ++ kw ++ "' : '" ++ opt ++ "' option without value"

/-- The `memprintf(err, "%s: out of memory", ...)` message. -/
def msgOom (kw : String) : String :=
  kw ++ ": out of memory"

/-- The keyword-argument loop of `parse_trace_flt`.  `cur` is the saved
`*cur_arg` (used in error messages), `strdupOk` models the `strdup`
allocation; an unrecognized token breaks out with the position of that
token, an error discards the partially built config. -/
def parseLoop (args : List String) (cur : Nat) (strdupOk : Bool) (pos : Nat)
    (conf : TraceConfig) : Except String (TraceConfig × Nat) :=
  if h : argAt args pos = "" then .ok (conf, pos)
  else if argAt args pos = "name" then
    if argAt args (pos + 1) = "" then
      .error (msgNoValue (argAt args cur) (argAt args pos))
    else if strdupOk then
      parseLoop args cur strdupOk (pos + 2)
        { conf with name := some (argAt args (pos + 1)) }
    else .error (msgOom (argAt args cur))
  else if argAt args pos = "random-parsing" then
    parseLoop args cur strdupOk (pos + 1) { conf with rand_parsing := true }
  else if argAt args pos = "random-forwarding" then
    parseLoop args cur strdupOk (pos + 1) { conf with rand_forwarding := true }
  else if argAt args pos = "hexdump" then
    parseLoop args cur strdupOk (pos + 1) { conf with hexdump := true }
  else .ok (conf, pos)
termination_by args.length - pos
decreasing_by
  all_goals
    have hlt : pos < args.length := by
      by_contra hge
      exact h (List.getD_eq_default args "" (by omega))
    omega

/-- `parse_trace_flt`: allocate the config (`callocOk` models `calloc`),
then when the keyword is `trace` run the argument loop.  On success the
config and the new `*cur_arg` position are returned; on error the partial
config is discarded. -/
def parse_trace_flt (args : List String) (cur : Nat) (callocOk strdupOk : Bool) :
    Except String (TraceConfig × Nat) :=
  if callocOk then
    let conf : TraceConfig := ⟨none, false, false, false⟩
    if argAt args cur = "trace" then parseLoop args cur strdupOk (cur + 1) conf
    else .ok (conf, cur)
  else .error (msgOom (argAt args cur))

/-- The unknown-keyword message of the host filter-argument driver. -/
def msgUnknownKeyword (kw : String) : String :=
  "unknown keyword '" ++ kw ++ "'"

/-- Modelled from the spec: the host keyword driver that invokes
`parse_trace_flt` (HAProxy's filter-declaration parser, not part of this
repository) treats any token left unconsumed by the keyword parser as a
configuration error: "unknown trailing tokens are configuration errors". -/
def flt_parse_driver (args : List String) (cur : Nat) (callocOk strdupOk : Bool) :
    Except String TraceConfig :=
  match parse_trace_flt args cur callocOk strdupOk with
  | .error e => .error e
  | .ok (conf, pos) =>
      if argAt args pos = "" then .ok conf
      else .error (msgUnknownKeyword (argAt args pos))

/-! ## Spec-side definitions

Definitions written from the specification's words, to be compared with
the source-derived definitions above (refinement-style claims). -/

/-- Spec-side `sliceAt` (from the spec's words, for comparison with the
source-derived `htxRuns`): payload byte runs covering
`[offset, offset+maxLen)` of the message body, "skipping non-payload
blocks (headers, trailers, boundaries) and stopping early at
end-of-message" — offset and budget are charged against payload bytes
only. -/
def sliceAtSpec (blocks : List Blk) (off maxLen : Nat) : List (List Nat) :=
  match blocks with
  | [] => []
  | b :: rest =>
    if maxLen = 0 then []
    else if b.ty = BlkType.eom then []
    else if b.ty = BlkType.data then
      if off ≥ b.val.length then sliceAtSpec rest (off - b.val.length) maxLen
      else
        let run := (b.val.drop off).take maxLen
        run :: sliceAtSpec rest 0 (maxLen - run.length)
    else sliceAtSpec rest off maxLen

/-- Spec-side `payloadBytesIn` (from the spec's words): "a derived query
(sum of sliced run lengths)". -/
def payloadBytesInSpec (blocks : List Blk) (off len : Nat) : Nat :=
  ((sliceAtSpec blocks off len).map List.length).sum

/-- The structured message of the spec's `sliceAt` example: a header block
(name `a`, value `b`, block size 2), `DATA("abc")`, `DATA("defgh")`,
end-of-message. -/
def exBlocks4 : List Blk :=
  [⟨BlkType.hdr, 2, [98]⟩,
   ⟨BlkType.data, 3, [97, 98, 99]⟩,
   ⟨BlkType.data, 5, [100, 101, 102, 103, 104]⟩,
   ⟨BlkType.eom, 1, []⟩]

/-- A ring buffer whose physical layout wraps a logical window: the
window's second span `s2` sits at the buffer origin, the first span `s1`
at the physical end, `junk` (unused capacity) in between; `head` points at
`s1` (at the origin when `s1` is empty) and the data present is exactly
the window `s1 ++ s2`. -/
def wrapBuffer (s1 s2 junk : List Nat) : Buffer :=
  ⟨s2 ++ junk ++ s1,
   (s2.length + junk.length) % (s2 ++ junk ++ s1).length,
   s1.length + s2.length⟩

/-- The byte sequence split into rows of sixteen (the last row shorter
when the length is not a multiple of sixteen). -/
def chunk16 (l : List Nat) : List (List Nat) :=
  if h : l = [] then [] else l.take 16 :: chunk16 (l.drop 16)
termination_by l.length
decreasing_by
  have : 0 < l.length := List.length_pos.mpr h
  simp only [List.length_drop]
  omega

/-- Spec-side hex cell of a row (from the claim's words): the byte as two
hex digits when present, a blank (space) cell in a padded short row. -/
def specCell (row : List Nat) (j : Nat) : List Nat :=
  if j < row.length then hex2sp (row.getD j 0 % 256) else [32, 32, 32]

/-- Spec-side rendering of one dump row (from the claim's words): sixteen
cells, an extra space before the row's 9th byte, and an ASCII column
reflecting only the bytes actually present (printable bytes verbatim,
all others as a dot). -/
def rowRender (r : Nat) (row : List Nat) : List Nat :=
  rowHdr (16 * r)
    ++ specCell row 0 ++ specCell row 1 ++ specCell row 2 ++ specCell row 3
    ++ specCell row 4 ++ specCell row 5 ++ specCell row 6 ++ specCell row 7
    ++ [32, 32]
    ++ specCell row 8 ++ specCell row 9 ++ specCell row 10 ++ specCell row 11
    ++ specCell row 12 ++ specCell row 13 ++ specCell row 14 ++ specCell row 15
    ++ ([32, 32, 124] ++ row.map printCh ++ [124, 10])

/-- Spec-side rendering of consecutive rows starting at row index `r`. -/
def renderRows (r : Nat) (rows : List (List Nat)) : List Nat :=
  match rows with
  | [] => []
  | row :: rest => rowRender r row ++ renderRows (r + 1) rest

/-- Spec-side hex dump (from the claim's words): sixteen bytes per row,
row by row. -/
def hexdumpSpec (bs : List Nat) : List Nat :=
  renderRows 0 (chunk16 bs)

/-- Spec-side first span of a window of `len` bytes at the buffer head,
split by the physical end (from the spec's words): span 1 runs "from the
current head up to the buffer's physical end or until `len` bytes,
whichever first". -/
def wrapSpan1 (buf : Buffer) (len : Nat) : List Nat :=
  (buf.orig.drop (b_peek_ofs buf 0)).take
    (min len (buf.orig.length - b_peek_ofs buf 0))

/-- Spec-side second span (from the spec's words): the window's remaining
bytes, "wrapped from the buffer origin". -/
def wrapSpan2 (buf : Buffer) (len : Nat) : List Nat :=
  buf.orig.take (len - min len (buf.orig.length - b_peek_ofs buf 0))

/-! ## Claim theorems -/

/-- The forward-cap accumulator of `trace_http_payload` computes the size
of the leading DATA run past `off`, clamped to `len`. -/
theorem payloadData_char (blocks : List Blk) :
    ∀ off len data, data ≤ len →
      payloadData blocks off len data = min (data + (leadingData blocks - off)) len := by
  induction blocks with
  | nil =>
    intro off len data h
    simp only [payloadData, leadingData]
    omega
  | cons b rest ih =>
    intro off len data h
    simp only [payloadData, leadingData]
    by_cases hty : b.ty = BlkType.data
    · rw [if_neg (by simp [hty]), if_pos hty]
      by_cases hoff : off ≥ b.sz
      · rw [if_pos hoff, ih _ _ _ h]
        omega
      · rw [if_neg hoff]
        by_cases hd : data + (b.sz - off) > len
        · rw [if_pos hd]
          omega
        · rw [if_neg hd, ih _ _ _ (by omega)]
          omega
    · rw [if_pos (by simp [hty]), if_neg hty]
      omega

/-- C1: for every data-path hook (HTTP data, HTTP payload, HTTP forward,
TCP data, TCP forward), when the relevant randomization flag
(`rand_parsing` or `rand_forwarding`) is false, the returned amount equals
the full available/requested count (`avail` or `len`). -/
theorem claim1_no_random_full_amount :
    (∀ conf cl mn ci nxt rng, conf.rand_parsing = false →
      (trace_http_data conf cl mn ci nxt rng).ret = httpAvail cl mn ci nxt) ∧
    (∀ conf ci nxt rng, conf.rand_parsing = false →
      (trace_tcp_data conf ci nxt rng).ret = tcpAvail ci nxt) ∧
    (∀ conf blocks off len rng, conf.rand_forwarding = false →
      (trace_http_payload conf blocks off len rng).ret = len) ∧
    (∀ conf chn nxt fwd len rng, conf.rand_forwarding = false →
      (trace_http_forward_data conf chn nxt fwd len rng).ret = len) ∧
    (∀ conf chn fwd len rng, conf.rand_forwarding = false →
      (trace_tcp_forward_data conf chn fwd len rng).ret = len) := by
  refine ⟨?_, ?_, ?_, ?_, ?_⟩ <;> intros <;>
    simp [trace_http_data, trace_tcp_data, trace_http_payload,
      trace_http_forward_data, trace_tcp_forward_data, *]

/-- Witness for C1: a concrete all-flags-off configuration on each hook. -/
theorem claim1_no_random_full_amount_witness :
    (trace_http_data ⟨none, false, false, false⟩ 3 4 5 2 9).ret = httpAvail 3 4 5 2 ∧
    (trace_tcp_data ⟨none, false, false, false⟩ 5 2 9).ret = tcpAvail 5 2 ∧
    (trace_http_payload ⟨none, false, false, false⟩ [⟨BlkType.data, 3, [97, 98, 99]⟩] 0 3 9).ret = 3 ∧
    (trace_http_forward_data ⟨none, false, false, false⟩ ⟨⟨[1, 2], 0, 2⟩, 0⟩ 0 0 2 9).ret = 2 ∧
    (trace_tcp_forward_data ⟨none, false, false, false⟩ ⟨⟨[1, 2], 0, 2⟩, 0⟩ 0 2 9).ret = 2 :=
  ⟨claim1_no_random_full_amount.1 _ 3 4 5 2 9 rfl,
   claim1_no_random_full_amount.2.1 _ 5 2 9 rfl,
   claim1_no_random_full_amount.2.2.1 _ _ 0 3 9 rfl,
   claim1_no_random_full_amount.2.2.2.1 _ _ 0 0 2 9 rfl,
   claim1_no_random_full_amount.2.2.2.2 _ _ 0 2 9 rfl⟩

/-- C2: for every data-path hook and every channel/message state, the
returned consumption/forward count lies within `[0, avail]` (respectively
`[0, len]`), randomization enabled or not.  Counts are natural numbers in
the embedding (the channel invariant `0 <= forwarded <= next <= total`
keeps every count the C code computes nonnegative), so only the upper
bound is nontrivial. -/
theorem claim2_counts_in_range :
    (∀ conf cl mn ci nxt rng,
      (trace_http_data conf cl mn ci nxt rng).ret ≤ httpAvail cl mn ci nxt) ∧
    (∀ conf ci nxt rng, (trace_tcp_data conf ci nxt rng).ret ≤ tcpAvail ci nxt) ∧
    (∀ conf blocks off len rng, (trace_http_payload conf blocks off len rng).ret ≤ len) ∧
    (∀ conf chn nxt fwd len rng,
      (trace_http_forward_data conf chn nxt fwd len rng).ret ≤ len) ∧
    (∀ conf chn fwd len rng, (trace_tcp_forward_data conf chn fwd len rng).ret ≤ len) := by
  refine ⟨?_, ?_, ?_, ?_, ?_⟩ <;> intros <;>
    · dsimp only [trace_http_data, trace_tcp_data, trace_http_payload,
        trace_http_forward_data, trace_tcp_forward_data]
      split
      all_goals
        first
        | exact Nat.le_refl _
        | exact Nat.lt_succ_iff.mp (Nat.mod_lt _ (Nat.succ_pos _))
        | · split
            · exact Nat.le_refl _
            · exact Nat.lt_succ_iff.mp (Nat.mod_lt _ (Nat.succ_pos _))

/-- C7: for every data-path call, whenever the returned amount is strictly
less than the `avail`/`len` argument of that call, `task_wakeup` is
invoked exactly once for that call. -/
theorem claim7_reschedule_on_short_count :
    (∀ conf cl mn ci nxt rng,
      (trace_http_data conf cl mn ci nxt rng).ret < httpAvail cl mn ci nxt →
      (trace_http_data conf cl mn ci nxt rng).wake = 1) ∧
    (∀ conf ci nxt rng,
      (trace_tcp_data conf ci nxt rng).ret < tcpAvail ci nxt →
      (trace_tcp_data conf ci nxt rng).wake = 1) ∧
    (∀ conf blocks off len rng,
      (trace_http_payload conf blocks off len rng).ret < len →
      (trace_http_payload conf blocks off len rng).wake = 1) ∧
    (∀ conf chn nxt fwd len rng,
      (trace_http_forward_data conf chn nxt fwd len rng).ret < len →
      (trace_http_forward_data conf chn nxt fwd len rng).wake = 1) ∧
    (∀ conf chn fwd len rng,
      (trace_tcp_forward_data conf chn fwd len rng).ret < len →
      (trace_tcp_forward_data conf chn fwd len rng).wake = 1) := by
  refine ⟨?_, ?_, ?_, ?_, ?_⟩
  · intro conf cl mn ci nxt rng h
    dsimp only [trace_http_data] at h ⊢
    exact if_pos (Nat.ne_of_lt h)
  · intro conf ci nxt rng h
    dsimp only [trace_tcp_data] at h ⊢
    exact if_pos (Nat.ne_of_lt h)
  · intro conf blocks off len rng h
    dsimp only [trace_http_payload] at h ⊢
    exact if_pos (Nat.ne_of_lt h)
  · intro conf chn nxt fwd len rng h
    dsimp only [trace_http_forward_data] at h ⊢
    exact if_pos (Or.inl (Nat.ne_of_lt h))
  · intro conf chn fwd len rng h
    dsimp only [trace_tcp_forward_data] at h ⊢
    exact if_pos (Nat.ne_of_lt h)

/-- Witness for C7: concrete randomized calls that return less than the
available/requested count and wake the task once. -/
theorem claim7_reschedule_on_short_count_witness :
    (trace_http_data ⟨none, true, false, false⟩ 2 0 5 0 1).wake = 1 ∧
    (trace_tcp_data ⟨none, true, false, false⟩ 2 0 1).wake = 1 ∧
    (trace_http_payload ⟨none, false, true, false⟩
      [⟨BlkType.data, 5, [97, 98, 99, 100, 101]⟩] 0 5 2).wake = 1 ∧
    (trace_http_forward_data ⟨none, false, true, false⟩ ⟨⟨[], 0, 0⟩, 0⟩ 0 0 3 1).wake = 1 ∧
    (trace_tcp_forward_data ⟨none, false, true, false⟩ ⟨⟨[], 0, 0⟩, 0⟩ 0 3 1).wake = 1 :=
  ⟨claim7_reschedule_on_short_count.1 _ 2 0 5 0 1 (by decide),
   claim7_reschedule_on_short_count.2.1 _ 2 0 1 (by decide),
   claim7_reschedule_on_short_count.2.2.1 _ _ 0 5 2 (by decide),
   claim7_reschedule_on_short_count.2.2.2.1 _ _ 0 0 3 1 (by decide),
   claim7_reschedule_on_short_count.2.2.2.2 _ _ 0 3 1 (by decide)⟩

/-- C9: no hook entry point mutates message or channel content: the
channel state a forward hook returns equals the channel state it was
given — the temporary `c_adv` performed for hex dumping is exactly undone
by `c_rew` (the remaining hooks never touch the channel at all). -/
theorem claim9_channel_state_preserved :
    (∀ conf chn nxt fwd len rng,
      (trace_http_forward_data conf chn nxt fwd len rng).chn = chn) ∧
    (∀ conf chn fwd len rng,
      (trace_tcp_forward_data conf chn fwd len rng).chn = chn) := by
  constructor <;> intros <;>
    · dsimp only [trace_http_forward_data, trace_tcp_forward_data]
      split
      · dsimp only [c_adv, c_rew]
        congr 1
        omega
      · rfl

/-- C10: in the structured payload hook, the diagnostic hex dump covers
the requested window `[offset, offset+len)` independently of the random
draw: two runs on the same message, offset and length that differ only in
the draw produce identical dump output. -/
theorem claim10_dump_independent_of_draw :
    ∀ conf blocks offset len rng1 rng2,
      (trace_http_payload conf blocks offset len rng1).dump =
        (trace_http_payload conf blocks offset len rng2).dump := by
  intros
  rfl

/-- C3 counterexample: in `trace_http_payload` with random forwarding on,
for the single-block message `DATA("abcde")`, `offset = 0`, `len = 5` and
a drawn amount of `2`, the cap the code computes (the `data` variable,
here `5`) is not `payloadBytesIn(view, offset, amount)` (here `2`): the
cap is computed before the draw and bounded by `len`, not by the drawn
amount. -/
theorem claim3_counterexample :
    payloadData [⟨BlkType.data, 5, [97, 98, 99, 100, 101]⟩] 0 5 0 = 5 ∧
    (2 : Nat) % (5 + 1) = 2 ∧
    payloadBytesInSpec [⟨BlkType.data, 5, [97, 98, 99, 100, 101]⟩] 0 2 = 2 ∧
    (5 : Nat) ≠ 2 ∧
    (trace_http_payload ⟨none, false, true, false⟩
      [⟨BlkType.data, 5, [97, 98, 99, 100, 101]⟩] 0 5 2).ret = 2 := by
  refine ⟨by decide, by decide, by decide, by decide, ?_⟩
  decide

/-- C3 (amended): in the structured payload hook with random forwarding
enabled, the cap is computed before the draw as the number of DATA bytes
in the leading run of DATA blocks starting at `offset`, clamped to `len`
(not as `payloadBytesIn(view, offset, amount)`); whenever the drawn
amount exceeds that cap, the returned value is the original requested
`len` — not the drawn amount or the cap. -/
theorem claim3_amended_forward_cap :
    (∀ blocks off len,
      payloadData blocks off len 0 = min (leadingData blocks - off) len) ∧
    (∀ conf blocks off len rng, conf.rand_forwarding = true →
      rng % (len + 1) > payloadData blocks off len 0 →
      (trace_http_payload conf blocks off len rng).ret = len) := by
  constructor
  · intro blocks off len
    have := payloadData_char blocks off len 0 (Nat.zero_le len)
    omega
  · intro conf blocks off len rng hf hgt
    dsimp only [trace_http_payload]
    by_cases hlen : len = 0
    · subst hlen
      rw [Nat.mod_one] at hgt
      omega
    · rw [if_pos ⟨hlen, by rw [hf]⟩, if_pos hgt]

/-- Witness for C3 (amended): concrete cap value and a concrete call in
which the drawn amount (2) exceeds the cap (1) and the full `len` (3) is
returned. -/
theorem claim3_amended_forward_cap_witness :
    payloadData [⟨BlkType.data, 1, [97]⟩] 0 3 0 =
      min (leadingData [⟨BlkType.data, 1, [97]⟩] - 0) 3 ∧
    (trace_http_payload ⟨none, false, true, false⟩ [⟨BlkType.data, 1, [97]⟩] 0 3 2).ret = 3 :=
  ⟨claim3_amended_forward_cap.1 _ 0 3,
   claim3_amended_forward_cap.2 _ _ 0 3 2 rfl (by decide)⟩

/-- C4 counterexample: on blocks `[HEADER, DATA("abc"), DATA("defgh"),
END]` with `offset = 1`, `maxLen = 6`, the source's block walk
(`trace_htx_hexdump`) dumps the runs `"abc"` then `"def"`, not the claimed
`"bc"` then `"defg"`: the header block's size is charged against the
offset instead of being skipped (the spec-side `sliceAtSpec`, which does
skip non-payload blocks, yields the claimed runs). -/
theorem claim4_counterexample :
    htxRuns exBlocks4 1 6 = [[97, 98, 99], [100, 101, 102]] ∧
    htxRuns exBlocks4 1 6 ≠ [[98, 99], [100, 101, 102, 103]] ∧
    sliceAtSpec exBlocks4 1 6 = [[98, 99], [100, 101, 102, 103]] := by
  refine ⟨by decide, by decide, by decide⟩

/-- C4 (amended): `trace_htx_hexdump` charges every block's size — payload
or not — against `offset` and `maxLen`, dumps only DATA bytes, and stops
when the budget is exhausted or the blocks end; in particular, for blocks
`[HEADER(size 2), DATA("abc"), DATA("defgh"), END]`, `offset = 1`,
`maxLen = 6` it dumps exactly the payload runs `"abc"` then `"def"`
(6 bytes), the offset having been consumed inside the header block. -/
theorem claim4_amended_blocks_charge_window :
    (∀ (b : Blk) rest off len, len ≠ 0 → off ≥ b.sz →
      htxRuns (b :: rest) off len = htxRuns rest (off - b.sz) len) ∧
    htxRuns exBlocks4 1 6 = [[97, 98, 99], [100, 101, 102]] := by
  constructor
  · intro b rest off len hlen hoff
    simp only [htxRuns]
    rw [if_neg hlen, if_pos hoff]
  · decide

/-- Witness for C4 (amended): the skip branch applied to a concrete
trailer block of size 4 with offset 7. -/
theorem claim4_amended_blocks_charge_window_witness :
    htxRuns [⟨BlkType.tlr, 4, []⟩, ⟨BlkType.data, 9, [1, 2, 3, 4, 5, 6, 7, 8, 9]⟩] 7 2 =
      htxRuns [⟨BlkType.data, 9, [1, 2, 3, 4, 5, 6, 7, 8, 9]⟩] (7 - 4) 2 ∧
    htxRuns exBlocks4 1 6 = [[97, 98, 99], [100, 101, 102]] :=
  ⟨claim4_amended_blocks_charge_window.1 _ _ 7 2 (by decide) (by decide),
   claim4_amended_blocks_charge_window.2⟩

/-- The head of a `wrapBuffer` sits at the start of the first span. -/
theorem wrapBuffer_peek (s1 s2 junk : List Nat) (h : s1 ≠ []) :
    b_peek_ofs (wrapBuffer s1 s2 junk) 0 = s2.length + junk.length := by
  have hpos : 0 < s1.length := List.length_pos.mpr h
  have hlen : (s2 ++ junk ++ s1).length = s2.length + (junk.length + s1.length) := by
    simp [List.length_append]
  have hhead : (wrapBuffer s1 s2 junk).head = s2.length + junk.length := by
    simp only [wrapBuffer, hlen]
    exact Nat.mod_eq_of_lt (by omega)
  simp only [b_peek_ofs, wrapBuffer] at hhead ⊢
  rw [hhead, hlen]
  split <;> omega

/-- Reading a `wrapBuffer` the way `trace_raw_hexdump` does — first span
from `b_head` to the physical end, second span wrapped to the origin —
reconstructs the logical window `s1 ++ s2`. -/
theorem wrapBuffer_spans (s1 s2 junk : List Nat) :
    rawSpan1 (wrapBuffer s1 s2 junk) (s1.length + s2.length) 0 ++
      rawSpan2 (wrapBuffer s1 s2 junk) (s1.length + s2.length) 0 = s1 ++ s2 := by
  have hlen : (s2 ++ junk ++ s1).length = s2.length + (junk.length + s1.length) := by
    simp [List.length_append]
  by_cases ha : s1 = []
  · subst ha
    have hpeek : b_peek_ofs (wrapBuffer [] s2 junk) 0 = 0 := by
      have hhead : (wrapBuffer [] s2 junk).head = 0 := by
        simp only [wrapBuffer, hlen]
        simp
      simp only [b_peek_ofs, hhead]
      split <;> omega
    have hcontig : b_contig_data (wrapBuffer [] s2 junk) 0 = s2.length := by
      simp only [b_contig_data, hpeek]
      simp only [wrapBuffer, hlen]
      simp
    simp only [rawSpan1, rawSpan2, hpeek, hcontig]
    have hmin : min (List.length ([] : List Nat) + s2.length) s2.length = s2.length := by
      simp
    rw [hmin]
    simp only [wrapBuffer, List.drop_zero]
    have : (s2 ++ junk ++ ([] : List Nat)) = s2 ++ junk := by simp
    rw [this, List.take_left]
    simp
  · have hpeek := wrapBuffer_peek s1 s2 junk ha
    have hpos : 0 < s1.length := List.length_pos.mpr ha
    have hcontig : b_contig_data (wrapBuffer s1 s2 junk) 0 = s1.length := by
      simp only [b_contig_data, hpeek]
      simp only [wrapBuffer, hlen]
      omega
    simp only [rawSpan1, rawSpan2, hpeek, hcontig]
    have hmin : min (s1.length + s2.length) s1.length = s1.length := by omega
    rw [hmin]
    have hdrop : ((wrapBuffer s1 s2 junk).orig.drop (s2.length + junk.length)) = s1 := by
      simp only [wrapBuffer]
      rw [show s2.length + junk.length = (s2 ++ junk).length by simp, List.drop_left]
    rw [hdrop, List.take_length,
      show s1.length + s2.length - s1.length = s2.length by omega]
    simp only [wrapBuffer]
    rw [show s2 ++ junk ++ s1 = s2 ++ (junk ++ s1) by simp, List.take_left]

/-- C5 counterexample: at forward offset `out = 2` on the ring buffer with
storage `[1,2,3,4,5,6]`, head 4 and 6 data bytes, the window of `len = 4`
at the head splits at the physical end into the spans `[5,6]` and `[1,2]`,
but `trace_raw_hexdump` dumps only `[5,6]`: the contiguous limit is taken
at offset `out` while the copy starts at the head (in the C, that first
`memcpy` reads past the buffer's physical end), so the dump of this
wrapped window is not the dump of the unwrapped copy of its two spans. -/
theorem claim5_counterexample :
    rawSpan1 ⟨[1, 2, 3, 4, 5, 6], 4, 6⟩ 4 2 ++
      rawSpan2 ⟨[1, 2, 3, 4, 5, 6], 4, 6⟩ 4 2 = [5, 6] ∧
    wrapSpan1 ⟨[1, 2, 3, 4, 5, 6], 4, 6⟩ 4 = [5, 6] ∧
    wrapSpan2 ⟨[1, 2, 3, 4, 5, 6], 4, 6⟩ 4 = [1, 2] ∧
    trace_raw_hexdump ⟨[1, 2, 3, 4, 5, 6], 4, 6⟩ 4 2 ≠
      trace_hexdump (wrapSpan1 ⟨[1, 2, 3, 4, 5, 6], 4, 6⟩ 4 ++
        wrapSpan2 ⟨[1, 2, 3, 4, 5, 6], 4, 6⟩ 4) := by
  refine ⟨by decide, by decide, by decide, by decide⟩

/-- C5 (amended): for a ring-buffer-backed window read at forward offset
`out = 0` with `len` not exceeding the data present, the two memcpy
sources of `trace_raw_hexdump` are exactly the split of the window by the
buffer's physical end (span 1 from the head up to the physical end or
`len` bytes, whichever first; span 2 wrapped from the origin), and the hex
dump of the wrapped window is byte-for-byte the hex dump of an unwrapped
contiguous copy of the same logical `len` bytes (span 1 followed by
span 2) — also witnessed on explicitly wrapping buffers built from two
arbitrary spans.  At `out > 0` the code takes the contiguous limit at
`out` but copies from the head, and the equality fails
(`claim5_counterexample`). -/
theorem claim5_amended_wrapped_dump :
    (∀ buf len, len ≤ buf.data →
      rawSpan1 buf len 0 = wrapSpan1 buf len ∧
      rawSpan2 buf len 0 = wrapSpan2 buf len ∧
      trace_raw_hexdump buf len 0 =
        trace_hexdump (wrapSpan1 buf len ++ wrapSpan2 buf len)) ∧
    (∀ s1 s2 junk : List Nat,
      trace_raw_hexdump (wrapBuffer s1 s2 junk) (s1.length + s2.length) 0 =
        trace_hexdump (s1 ++ s2)) := by
  constructor
  · intro buf len hlen
    have hmin : min len (b_contig_data buf 0) =
        min len (buf.orig.length - b_peek_ofs buf 0) := by
      unfold b_contig_data
      omega
    have h1 : rawSpan1 buf len 0 = wrapSpan1 buf len := by
      unfold rawSpan1 wrapSpan1
      rw [hmin]
    have h2 : rawSpan2 buf len 0 = wrapSpan2 buf len := by
      unfold rawSpan2 wrapSpan2
      rw [hmin]
    refine ⟨h1, h2, ?_⟩
    unfold trace_raw_hexdump
    rw [h1, h2]
  · intro s1 s2 junk
    unfold trace_raw_hexdump
    rw [wrapBuffer_spans]

/-- Witness for C5 (amended): the counterexample's buffer read at
`out = 0` dumps its full wrapped window `[5,6,1,2]`, and a `wrapBuffer`
built from the spans `[5,6]` and `[1,2]` dumps the same unwrapped copy. -/
theorem claim5_amended_wrapped_dump_witness :
    (rawSpan1 ⟨[1, 2, 3, 4, 5, 6], 4, 6⟩ 4 0 =
        wrapSpan1 ⟨[1, 2, 3, 4, 5, 6], 4, 6⟩ 4 ∧
      rawSpan2 ⟨[1, 2, 3, 4, 5, 6], 4, 6⟩ 4 0 =
        wrapSpan2 ⟨[1, 2, 3, 4, 5, 6], 4, 6⟩ 4 ∧
      trace_raw_hexdump ⟨[1, 2, 3, 4, 5, 6], 4, 6⟩ 4 0 =
        trace_hexdump (wrapSpan1 ⟨[1, 2, 3, 4, 5, 6], 4, 6⟩ 4 ++
          wrapSpan2 ⟨[1, 2, 3, 4, 5, 6], 4, 6⟩ 4)) ∧
    trace_raw_hexdump (wrapBuffer [5, 6] [1, 2] [3, 4]) 4 0 =
      trace_hexdump [5, 6, 1, 2] :=
  ⟨claim5_amended_wrapped_dump.1 ⟨[1, 2, 3, 4, 5, 6], 4, 6⟩ 4 (by decide),
   claim5_amended_wrapped_dump.2 [5, 6] [1, 2] [3, 4]⟩

/-- C8: the `trace` keyword parser fails with a descriptive message naming
the offending keyword when `name` has no following value and on allocation
failure, returning no (partially built) config on those error paths; and a
token left over after the recognized flags is reported as a configuration
error by the keyword driver (the driver itself is modelled from the spec,
see `flt_parse_driver`). -/
theorem claim8_config_error_paths :
    (∀ args cur strdupOk pos conf,
      argAt args pos = "name" → argAt args (pos + 1) = "" →
      parseLoop args cur strdupOk pos conf =
        .error (msgNoValue (argAt args cur) "name")) ∧
    (∀ args cur strdupOk pos conf,
      argAt args pos = "name" → argAt args (pos + 1) ≠ "" → strdupOk = false →
      parseLoop args cur strdupOk pos conf = .error (msgOom (argAt args cur))) ∧
    (∀ args cur strdupOk,
      parse_trace_flt args cur false strdupOk = .error (msgOom (argAt args cur))) ∧
    (∀ args cur strdupOk conf pos,
      parse_trace_flt args cur true strdupOk = .ok (conf, pos) →
      argAt args pos ≠ "" →
      flt_parse_driver args cur true strdupOk =
        .error (msgUnknownKeyword (argAt args pos))) := by
  refine ⟨?_, ?_, ?_, ?_⟩
  · intro args cur strdupOk pos conf h1 h2
    rw [parseLoop]
    simp [h1, h2]
  · intro args cur strdupOk pos conf h1 h2 h3
    rw [parseLoop]
    simp [h1, h2, h3]
  · intro args cur strdupOk
    simp [parse_trace_flt]
  · intro args cur strdupOk conf pos hok hne
    simp [flt_parse_driver, hok, hne]

/-- Witness for C8: `trace name` with the value missing, `trace name x`
under allocation failure, `trace` under initial allocation failure, and
`trace bogus` with a trailing unknown token. -/
theorem claim8_config_error_paths_witness :
    parseLoop ["trace", "name"] 0 true 1 ⟨none, false, false, false⟩ =
      .error (msgNoValue "trace" "name") ∧
    parseLoop ["trace", "name", "x"] 0 false 1 ⟨none, false, false, false⟩ =
      .error (msgOom "trace") ∧
    parse_trace_flt ["trace"] 0 false true = .error (msgOom "trace") ∧
    flt_parse_driver ["trace", "bogus"] 0 true true =
      .error (msgUnknownKeyword "bogus") := by
  refine ⟨?_, ?_, ?_, ?_⟩
  · exact claim8_config_error_paths.1 ["trace", "name"] 0 true 1 _ rfl rfl
  · exact claim8_config_error_paths.2.1 ["trace", "name", "x"] 0 false 1 _ rfl
      (by decide) rfl
  · exact claim8_config_error_paths.2.2.1 ["trace"] 0 true
  · refine claim8_config_error_paths.2.2.2 ["trace", "bogus"] 0 true
      ⟨none, false, false, false⟩ 1 ?_ (by decide)
    simp [parse_trace_flt, parseLoop, argAt]

/-- The ASCII-column loop prints exactly the printable-or-dot rendering of
the present bytes in the window `[j, j+n)`. -/
theorem asciiLoop_eq (bs : List Nat) :
    ∀ n j, asciiLoop bs j n = ((bs.drop j).take n).map printCh := by
  intro n
  induction n with
  | zero =>
    intro j
    simp [asciiLoop]
  | succ f ih =>
    intro j
    by_cases h : j < bs.length
    · rw [asciiLoop, if_pos h, List.drop_eq_getElem_cons h, List.take_succ_cons,
        List.map_cons, ih (j + 1), List.getD_eq_getElem bs 0 h]
    · rw [asciiLoop, if_neg h, List.drop_eq_nil_of_le (by omega)]
      simp

/-- A spec-side cell of the row slice at `s` equals the loop's cell at the
absolute index `s + j`. -/
theorem specCell_take_drop (bs : List Nat) (s j : Nat) (hj : j < 16) :
    specCell ((bs.drop s).take 16) j = cellPiece bs (s + j) := by
  have hlen : ((bs.drop s).take 16).length = min 16 (bs.length - s) := by
    simp [List.length_take, List.length_drop]
  by_cases h : s + j < bs.length
  · have hrow : j < ((bs.drop s).take 16).length := by omega
    rw [specCell, if_pos hrow, cellPiece, if_pos h]
    have : ((bs.drop s).take 16).getD j 0 = bs.getD (s + j) 0 := by
      rw [List.getD_eq_getElem _ _ hrow, List.getD_eq_getElem _ _ h]
      rw [List.getElem_take, List.getElem_drop]
    rw [this]
  · have hrow : ¬ j < ((bs.drop s).take 16).length := by omega
    rw [specCell, if_neg hrow, cellPiece, if_neg h]

/-- At a row start the loop prints the row header then the cell. -/
theorem dumpPiece_start (bs : List Nat) (i : Nat) (h : i % 16 = 0) :
    dumpPiece bs i = rowHdr i ++ cellPiece bs i := by
  simp [dumpPiece, h]

/-- At interior cells the loop prints just the cell. -/
theorem dumpPiece_mid (bs : List Nat) (i : Nat)
    (h16 : i % 16 ≠ 0) (h8 : i % 8 ≠ 0) (h15 : i % 16 ≠ 15) :
    dumpPiece bs i = cellPiece bs i := by
  simp [dumpPiece, h16, h8, h15]

/-- Before the 9th cell of a row the loop prints the extra spacing. -/
theorem dumpPiece_eight (bs : List Nat) (i : Nat) (h : i % 16 = 8) :
    dumpPiece bs i = [32, 32] ++ cellPiece bs i := by
  have h8 : i % 8 = 0 := by omega
  simp [dumpPiece, h, h8]

/-- At the last cell of a row the loop closes the row with the ASCII
column. -/
theorem dumpPiece_last (bs : List Nat) (i : Nat) (h : i % 16 = 15) :
    dumpPiece bs i =
      cellPiece bs i ++ ([32, 32, 124] ++ asciiLoop bs (i - 15) 16 ++ [124, 10]) := by
  have h8 : i % 8 = 7 := by omega
  simp [dumpPiece, h, h8]

/-- Sixteen unrolled iterations of the dump loop. -/
theorem dumpLoop_peel (bs : List Nat) (i f : Nat) :
    dumpLoop bs i (f + 16) =
      dumpPiece bs i ++ (dumpPiece bs (i + 1) ++ (dumpPiece bs (i + 2) ++
        (dumpPiece bs (i + 3) ++ (dumpPiece bs (i + 4) ++ (dumpPiece bs (i + 5) ++
        (dumpPiece bs (i + 6) ++ (dumpPiece bs (i + 7) ++ (dumpPiece bs (i + 8) ++
        (dumpPiece bs (i + 9) ++ (dumpPiece bs (i + 10) ++ (dumpPiece bs (i + 11) ++
        (dumpPiece bs (i + 12) ++ (dumpPiece bs (i + 13) ++ (dumpPiece bs (i + 14) ++
        (dumpPiece bs (i + 15) ++ dumpLoop bs (i + 16) f))))))))))))))) := rfl

/-- One full row of the dump loop, starting at index `16 * r`, prints the
spec-side rendering of the corresponding sixteen-byte slice. -/
theorem dumpLoop_row (bs : List Nat) (r f : Nat) :
    dumpLoop bs (16 * r) (f + 16) =
      rowRender r ((bs.drop (16 * r)).take 16) ++ dumpLoop bs (16 * r + 16) f := by
  rw [dumpLoop_peel]
  rw [dumpPiece_start bs (16 * r) (by omega)]
  rw [dumpPiece_mid bs (16 * r + 1) (by omega) (by omega) (by omega)]
  rw [dumpPiece_mid bs (16 * r + 2) (by omega) (by omega) (by omega)]
  rw [dumpPiece_mid bs (16 * r + 3) (by omega) (by omega) (by omega)]
  rw [dumpPiece_mid bs (16 * r + 4) (by omega) (by omega) (by omega)]
  rw [dumpPiece_mid bs (16 * r + 5) (by omega) (by omega) (by omega)]
  rw [dumpPiece_mid bs (16 * r + 6) (by omega) (by omega) (by omega)]
  rw [dumpPiece_mid bs (16 * r + 7) (by omega) (by omega) (by omega)]
  rw [dumpPiece_eight bs (16 * r + 8) (by omega)]
  rw [dumpPiece_mid bs (16 * r + 9) (by omega) (by omega) (by omega)]
  rw [dumpPiece_mid bs (16 * r + 10) (by omega) (by omega) (by omega)]
  rw [dumpPiece_mid bs (16 * r + 11) (by omega) (by omega) (by omega)]
  rw [dumpPiece_mid bs (16 * r + 12) (by omega) (by omega) (by omega)]
  rw [dumpPiece_mid bs (16 * r + 13) (by omega) (by omega) (by omega)]
  rw [dumpPiece_mid bs (16 * r + 14) (by omega) (by omega) (by omega)]
  rw [dumpPiece_last bs (16 * r + 15) (by omega)]
  rw [show 16 * r + 15 - 15 = 16 * r from by omega]
  rw [asciiLoop_eq]
  rw [rowRender]
  rw [specCell_take_drop bs (16 * r) 0 (by omega)]
  rw [specCell_take_drop bs (16 * r) 1 (by omega)]
  rw [specCell_take_drop bs (16 * r) 2 (by omega)]
  rw [specCell_take_drop bs (16 * r) 3 (by omega)]
  rw [specCell_take_drop bs (16 * r) 4 (by omega)]
  rw [specCell_take_drop bs (16 * r) 5 (by omega)]
  rw [specCell_take_drop bs (16 * r) 6 (by omega)]
  rw [specCell_take_drop bs (16 * r) 7 (by omega)]
  rw [specCell_take_drop bs (16 * r) 8 (by omega)]
  rw [specCell_take_drop bs (16 * r) 9 (by omega)]
  rw [specCell_take_drop bs (16 * r) 10 (by omega)]
  rw [specCell_take_drop bs (16 * r) 11 (by omega)]
  rw [specCell_take_drop bs (16 * r) 12 (by omega)]
  rw [specCell_take_drop bs (16 * r) 13 (by omega)]
  rw [specCell_take_drop bs (16 * r) 14 (by omega)]
  rw [specCell_take_drop bs (16 * r) 15 (by omega)]
  simp only [Nat.add_zero, List.append_assoc]

/-- The row splitter on an empty byte sequence. -/
theorem chunk16_nil : chunk16 [] = [] := by
  rw [chunk16]
  simp

/-- The row splitter peels one sixteen-byte row off a nonempty sequence. -/
theorem chunk16_cons (l : List Nat) (h : l ≠ []) :
    chunk16 l = l.take 16 :: chunk16 (l.drop 16) := by
  rw [chunk16, dif_neg h]

/-- From row `r` on, the dump loop prints the spec-side rendering of the
remaining rows. -/
theorem dumpLoop_renderRows (bs : List Nat) :
    ∀ n r, bs.length ≤ 16 * r + n →
      dumpLoop bs (16 * r) (bs.length + hexPadding bs.length - 16 * r) =
        renderRows r (chunk16 (bs.drop (16 * r))) := by
  intro n
  induction n using Nat.strong_induction_on with
  | _ n ih =>
    intro r hle
    by_cases hlt : 16 * r < bs.length
    · have htot : bs.length + hexPadding bs.length - 16 * r
          = (bs.length + hexPadding bs.length - 16 * (r + 1)) + 16 := by
        unfold hexPadding
        split <;> omega
      rw [htot, dumpLoop_row]
      have hne : bs.drop (16 * r) ≠ [] := by
        intro hnil
        have := congrArg List.length hnil
        simp only [List.length_drop, List.length_nil] at this
        omega
      rw [chunk16_cons _ hne, renderRows]
      congr 1
      rw [List.drop_drop]
      rw [show 16 * r + 16 = 16 * (r + 1) from by omega]
      exact ih (n - 16) (by omega) (r + 1) (by omega)
    · have h0 : bs.length + hexPadding bs.length - 16 * r = 0 := by
        unfold hexPadding
        split <;> omega
      rw [h0, List.drop_eq_nil_of_le (by omega), chunk16_nil]
      rfl

/-- C6: for every byte sequence, `trace_hexdump` renders exactly sixteen
bytes per row with the extra spacing before each row's 9th byte, each
present byte as two hex digits, each row closed by an ASCII column in
which printable bytes appear verbatim and all others as a dot, and a
short final row padded to width 16 with blank (space) cells while its
ASCII column contains only the bytes actually present — i.e. the loop's
output equals the row-by-row spec rendering `hexdumpSpec`. -/
theorem claim6_hexdump_row_format :
    ∀ bs, trace_hexdump bs = hexdumpSpec bs := by
  intro bs
  have h := dumpLoop_renderRows bs bs.length 0 (by omega)
  simpa using h
